import Mathlib

/-!
Shallow embedding of the realtime dual-stream conversation synchronizer of the
myhome repository: the `useRealtimeAgent` hook (renderer), the data-channel
event router `attachRealtimeDataChannelHandlers` (renderer/realtime/events),
and the WebRTC helpers (renderer/realtime/webrtc.ts).

The mutable refs of the hook (`currentMessageIdRef`, `completionStateRef`,
`messages`, `connRef`, `tracksRef`, `audioStreamRef`, `placeholderTrackRef`,
`placeholderAudioContextRef`, `dcCleanupRef`) are gathered into one explicit
state record `AgentState`; each handler and control function of the source is
translated to a pure state transformer.  External nondeterminism is made
explicit: `crypto.randomUUID()` is modelled by a fresh-id counter,
`getUserMedia` grants are an input of `startRecordingFn`, and `JSON.parse`
either throws (a `malformed` payload) or yields a decoded event.
-/

namespace MyHome

/-- Timeline entry / message id: either a locally generated uuid
(`crypto.randomUUID()`, modelled as the n-th fresh local id) or a
remote-assigned output id string (`output.id` of a `response.done` event). -/
inductive Mid where
  | loc (n : Nat)
  | remote (s : String)
deriving DecidableEq, Repr

/-- RealtimeMessage of shared/types/realtime.ts: one timeline entry with
optional accumulated bot and user text. -/
structure RealtimeMessage where
  id : Mid
  bot : Option String := none
  user : Option String := none
deriving DecidableEq, Repr

/-- AssistantContent of shared/types/realtime.ts: a content part of a
response.done output item, carrying the final transcript. -/
structure OutputContent where
  transcript : String
deriving DecidableEq, Repr

/-- Output item of a response.done event (AssistantMessage or
FunctionCallMessage): discriminated by the runtime string in `ty`
(the source checks output.type === 'message'). -/
structure OutputItem where
  ty : String
  id : String
  content : List OutputContent := []
deriving DecidableEq, Repr

/-- Body of a response.done event: `response.output` list. -/
structure ResponseBody where
  output : List OutputItem := []
deriving DecidableEq, Repr

/-- Decoded inbound data-channel event, mirroring the discriminated union in
shared/types/realtime.ts.  All payload fields are optional, as in the TS
types; delta/`transcript` carry the text, `itemId` models the `item_id`
field that the JSON payloads carry (and the handlers never read). -/
inductive InboundEvent where
  /-- type = response.audio_transcript.delta -/
  | botDelta (delta : Option String) (itemId : Option String)
  /-- type = conversation.item.input_audio_transcription.delta -/
  | userDelta (delta : Option String) (itemId : Option String)
  /-- type = conversation.item.input_audio_transcription.completed -/
  | userCompleted (transcript : Option String) (itemId : Option String)
  /-- type = response.done -/
  | respDone (response : Option ResponseBody)
  /-- any other type string: ignored by the router -/
  | unknown (ty : String)
deriving DecidableEq, Repr

/-- Raw inbound payload as seen by handleMessage: `JSON.parse(e.data)` either
throws (malformed payload, the thrown error caught by the handler) or yields
a decoded event. -/
inductive RawPayload where
  | malformed (err : String)
  | wellFormed (e : InboundEvent)
deriving DecidableEq, Repr

/-- JS truthiness of an optional string field: `undefined` and the empty
string are falsy. -/
def truthy : Option String → Bool
  | none => false
  | some s => !(s == "")

/-- Kind of a MediaStreamTrack in this app: a real microphone capture track
(from getUserMedia) or a synthetic silent track (from an AudioContext
MediaStreamDestination).  The two are always distinct track objects. -/
inductive TrackKind where
  | mic
  | silent
deriving DecidableEq, Repr

/-- A MediaStreamTrack reference: object identity plus its kind. -/
structure Track where
  id : Nat
  kind : TrackKind
deriving DecidableEq, Repr

/-- RTCDataChannel readyState. -/
inductive DcState where
  | connecting
  | opened
  | closing
  | closed
deriving DecidableEq, Repr

/-- Outbound client event (RealtimeEvent of shared/types/realtime.ts):
discriminator string plus the optional client-assigned `event_id`. -/
structure OutboundEvent where
  ty : String
  event_id : Option String := none
deriving DecidableEq, Repr

/-- RealtimeWebRtcConnection: the data channel state, teardown flags of the
peer connection and the audio sink, and the log of events sent over the
channel. -/
structure ConnObj where
  dcState : DcState
  pcClosed : Bool := false
  srcCleared : Bool := false
  sent : List OutboundEvent := []
deriving DecidableEq, Repr

/-- Callbacks the hook fires towards its options while processing events. -/
inductive Emit where
  | userTranscript (text : String) (messageId : Mid)
  | botTranscript (text : String) (messageId : Mid)
  | transcriptComplete (text : String) (isUser : Bool) (messageId : Mid)
  | parseError (err : String)
deriving DecidableEq, Repr

/-- Whole mutable state of the useRealtimeAgent hook: React state, refs and
the synchronization state, plus explicit counters for the external fresh-id
sources (uuids and newly created tracks) and a log of ended tracks and
console warnings. -/
structure AgentState where
  isSessionStarted : Bool := false
  isSessionActive : Bool := false
  isListening : Bool := false
  messages : List RealtimeMessage := []
  errorMsg : Option String := none
  conn : Option ConnObj := none
  audioStream : Option Track := none
  senders : List (Option Track) := []
  dcAttached : Bool := false
  placeholderTrack : Option Track := none
  placeholderCtxOpen : Bool := false
  currentMessageId : Option Mid := none
  responseDone : Bool := false
  transcriptionDone : Bool := false
  nextUuid : Nat := 0
  nextTrackId : Nat := 0
  endedTracks : List Nat := []
  warnings : Nat := 0
deriving DecidableEq, Repr

/-- Initial hook state (all refs null, flags false, empty timeline). -/
def initState : AgentState := {}

/-- Update the first timeline entry whose id matches (the source's
`prev.findIndex(msg => msg.id === messageId)` followed by a copy-on-write
update at that index); `none` when no entry matches. -/
def updateFirst (msgs : List RealtimeMessage) (i : Mid)
    (f : RealtimeMessage → RealtimeMessage) : Option (List RealtimeMessage) :=
  match msgs with
  | [] => none
  | m :: rest =>
    if m.id = i then some (f m :: rest)
    else (updateFirst rest i f).map (m :: ·)

/-- The hook's id allocation at the start of both delta handlers:
if (!currentMessageIdRef.current) currentMessageIdRef.current =
crypto.randomUUID(); returns the state and `const messageId =
currentMessageIdRef.current`. -/
def allocIfNeeded (s : AgentState) : AgentState × Mid :=
  match s.currentMessageId with
  | some i => (s, i)
  | none =>
    ({ s with currentMessageId := some (Mid.loc s.nextUuid),
              nextUuid := s.nextUuid + 1 }, Mid.loc s.nextUuid)

/-- resetMessageCycle of the hook: when both completion flags are set, clear
the current message id and reset both flags; otherwise do nothing. -/
def resetMessageCycle (s : AgentState) : AgentState :=
  if s.responseDone && s.transcriptionDone then
    { s with currentMessageId := none, responseDone := false,
             transcriptionDone := false }
  else s

/-- setMessages body of onBotTranscriptDelta: append the delta to the bot
text of the entry with the given id ((updated.bot || '') + delta), or
prepend a fresh entry { id, bot: delta } when no entry matches. -/
def botDeltaMsgs (msgs : List RealtimeMessage) (mid : Mid) (delta : String) :
    List RealtimeMessage :=
  match updateFirst msgs mid
      (fun m => { m with bot := some (m.bot.getD "" ++ delta) }) with
  | some l => l
  | none => { id := mid, bot := some delta, user := none } :: msgs

/-- setMessages body of onUserTranscriptDelta: same as the bot variant on
the user field. -/
def userDeltaMsgs (msgs : List RealtimeMessage) (mid : Mid) (delta : String) :
    List RealtimeMessage :=
  match updateFirst msgs mid
      (fun m => { m with user := some (m.user.getD "" ++ delta) }) with
  | some l => l
  | none => { id := mid, user := some delta, bot := none } :: msgs

/-- onBotTranscriptDelta handler of the hook: allocate an id if none is
tracked, then apply the timeline update. -/
def onBotDelta (s : AgentState) (delta : String) : AgentState × List Emit :=
  let (s1, mid) := allocIfNeeded s
  ({ s1 with messages := botDeltaMsgs s1.messages mid delta },
   [Emit.botTranscript delta mid])

/-- onUserTranscriptDelta handler of the hook: allocate an id if none is
tracked, then apply the timeline update. -/
def onUserDelta (s : AgentState) (delta : String) : AgentState × List Emit :=
  let (s1, mid) := allocIfNeeded s
  ({ s1 with messages := userDeltaMsgs s1.messages mid delta },
   [Emit.userTranscript delta mid])

/-- setMessages body of onUserTranscriptCompleted: overwrite the matching
entry's user text with the final transcript; no change when the tracked id
has no entry. -/
def userCompletedMsgs (msgs : List RealtimeMessage) (mid : Mid)
    (text : String) : List RealtimeMessage :=
  (updateFirst msgs mid (fun m => { m with user := some text })).getD msgs

/-- setMessages body of onResponseDone: overwrite the matching entry's bot
text with the final transcript and replace its id; no change when the
tracked id has no entry. -/
def respDoneMsgs (msgs : List RealtimeMessage) (mid newId : Mid)
    (finalTranscript : String) : List RealtimeMessage :=
  (updateFirst msgs mid
    (fun m => { m with id := newId, bot := some finalTranscript })).getD msgs

/-- onUserTranscriptCompleted handler of the hook: no-op when no message id
is tracked; otherwise apply the timeline update, set transcriptionDone, and
run the joint-completion check when responseDone is already set. -/
def onUserCompleted (s : AgentState) (text : String) : AgentState × List Emit :=
  match s.currentMessageId with
  | none => (s, [])
  | some mid =>
    let s1 := { s with messages := userCompletedMsgs s.messages mid text,
                       transcriptionDone := true }
    let s2 := if s1.responseDone then resetMessageCycle s1 else s1
    (s2, [Emit.transcriptComplete text true mid])

/-- Extraction of the final transcript from a response.done event, mirroring
the source: output = response?.output?.[0]; require output.type ===
'message'; finalTranscript = output.content?.[0]?.transcript, which must be
truthy. -/
def respDoneFinalTranscript (r : Option ResponseBody) :
    Option (OutputItem × String) :=
  match r with
  | none => none
  | some body =>
    match body.output with
    | [] => none
    | out :: _ =>
      if out.ty = "message" then
        match out.content with
        | [] => none
        | c :: _ => if c.transcript = "" then none else some (out, c.transcript)
      else none

/-- onResponseDone handler of the hook: when the first output item is a
message with a truthy final transcript and a message id is tracked,
overwrite the matching entry's bot text with it and replace the entry id by
output.id || messageId; in every case set responseDone and run the
joint-completion check when transcriptionDone is already set. -/
def onRespDone (s : AgentState) (r : Option ResponseBody) :
    AgentState × List Emit :=
  let (s1, emits) :=
    match respDoneFinalTranscript r, s.currentMessageId with
    | some (out, finalTranscript), some mid =>
      let newId := if out.id = "" then mid else Mid.remote out.id
      ({ s with messages := respDoneMsgs s.messages mid newId finalTranscript },
       [Emit.botTranscript finalTranscript mid,
        Emit.transcriptComplete finalTranscript false mid])
    | _, _ => (s, [])
  let s2 := { s1 with responseDone := true }
  let s3 := if s2.transcriptionDone then resetMessageCycle s2 else s2
  (s3, emits)

/-- Composition of the router's type dispatch and truthiness gates
(attachRealtimeDataChannelHandlers) with the hook's handlers: the router
invokes the delta/completed handlers only when the delta/transcript field is
truthy, forwards every response.done, and ignores unknown types. -/
def processDecoded (s : AgentState) (e : InboundEvent) :
    AgentState × List Emit :=
  match e with
  | .botDelta d _ =>
    match d with
    | some txt => if txt = "" then (s, []) else onBotDelta s txt
    | none => (s, [])
  | .userDelta d _ =>
    match d with
    | some txt => if txt = "" then (s, []) else onUserDelta s txt
    | none => (s, [])
  | .userCompleted t _ =>
    match t with
    | some txt => if txt = "" then (s, []) else onUserCompleted s txt
    | none => (s, [])
  | .respDone r => onRespDone s r
  | .unknown _ => (s, [])

/-- handleMessage of attachRealtimeDataChannelHandlers: JSON.parse inside
try/catch — a malformed payload invokes onParseError with the caught error
and leaves the state untouched; a well-formed payload is dispatched. -/
def handleRaw (s : AgentState) (p : RawPayload) : AgentState × List Emit :=
  match p with
  | .malformed err => (s, [Emit.parseError err])
  | .wellFormed e => processDecoded s e

/-- State part of processing one decoded inbound event. -/
def stepEvent (s : AgentState) (e : InboundEvent) : AgentState :=
  (processDecoded s e).1

/-- Run a sequence of decoded inbound events. -/
def runEvents (s : AgentState) (es : List InboundEvent) : AgentState :=
  es.foldl stepEvent s

/-- Completion-flag pair (responseDone, transcriptionDone) as left by an
event's own flag mutation, before the joint-completion check of the same
handler invocation runs. -/
def flagsAfterMutation (s : AgentState) (e : InboundEvent) : Bool × Bool :=
  match e with
  | .userCompleted t _ =>
    if truthy t && !(s.currentMessageId == none) then (s.responseDone, true)
    else (s.responseDone, s.transcriptionDone)
  | .respDone _ => (true, s.transcriptionDone)
  | _ => (s.responseDone, s.transcriptionDone)

/-- createSilentAudioTrack of the hook: builds a fresh silent track from a new
AudioContext MediaStreamDestination; the caller stores both. -/
def createSilentTrack (s : AgentState) : Track × AgentState :=
  ({ id := s.nextTrackId, kind := TrackKind.silent },
   { s with nextTrackId := s.nextTrackId + 1 })

/-- closeRealtimeWebRtcConnection of realtime/webrtc.ts on a non-null
connection: close the data channel, close the peer connection, clear the
audio element's srcObject (each wrapped in its own try/catch). -/
def closeConnObj (c : ConnObj) : ConnObj :=
  { c with dcState := DcState.closed, pcClosed := true, srcCleared := true }

/-- closeRealtimeWebRtcConnection of realtime/webrtc.ts: early-returns on a
null connection, otherwise tears the connection down. -/
def closeRealtimeWebRtcConnection : Option ConnObj → Option ConnObj
  | none => none
  | some c => some (closeConnObj c)

/-- stopSession of the hook: detach data-channel listeners, close the
connection and drop the ref, stop and drop mic tracks, stop the placeholder
track and close its AudioContext, then reset all React state, the sender
list, and the synchronization state.  The timeline (messages) is not reset. -/
def stopSessionFn (s : AgentState) : AgentState :=
  -- closeRealtimeWebRtcConnection(connRef.current) tears the owned connection
  -- down, then connRef.current = null drops the last reference to it.
  let s1 := { s with dcAttached := false, conn := none }
  let s2 :=
    match s1.audioStream with
    | some t => { s1 with endedTracks := t.id :: s1.endedTracks,
                          audioStream := none }
    | none => s1
  let s3 :=
    match s2.placeholderTrack with
    | some t => { s2 with endedTracks := t.id :: s2.endedTracks,
                          placeholderTrack := none }
    | none => s2
  let s4 := { s3 with placeholderCtxOpen := false }
  { s4 with isSessionStarted := false, isSessionActive := false,
            isListening := false, senders := [],
            currentMessageId := none, responseDone := false,
            transcriptionDone := false }

/-- startRecording of the hook, with the getUserMedia outcome made explicit:
throws (caught, error recorded) when no connection exists; on a capture
failure records the error; on a granted mic track stores the new stream and
replaces every sender's track with it (adding a sender when none exist). -/
def startRecordingFn (s : AgentState) (grant : Except String Nat) :
    AgentState :=
  if s.conn = none then { s with errorMsg := some "Session not started" }
  else
    match grant with
    | .error msg => { s with errorMsg := some msg }
    | .ok micId =>
      let mic : Track := { id := micId, kind := TrackKind.mic }
      let s1 := { s with audioStream := some mic }
      if s1.senders.isEmpty then
        { s1 with senders := s1.senders ++ [some mic], isListening := true }
      else
        { s1 with senders := s1.senders.map (fun _ => some mic),
                  isListening := true }

/-- stopRecording of the hook: stop and drop the mic stream; when senders
exist, reuse the stored placeholder track unless it is missing or ended (in
which case create a fresh silent one), and replace every sender's track with
it. -/
def stopRecordingFn (s : AgentState) : AgentState :=
  let s1 := { s with isListening := false }
  let s2 :=
    match s1.audioStream with
    | some t => { s1 with endedTracks := t.id :: s1.endedTracks,
                          audioStream := none }
    | none => s1
  if s2.senders.isEmpty then s2
  else
    let (ph, s3) :=
      match s2.placeholderTrack with
      | some p =>
        if s2.endedTracks.contains p.id then
          let (t, s') := createSilentTrack s2
          (t, { s' with placeholderTrack := some t,
                        placeholderCtxOpen := true })
        else (p, s2)
      | none =>
        let (t, s') := createSilentTrack s2
        (t, { s' with placeholderTrack := some t,
                      placeholderCtxOpen := true })
    { s3 with senders := s3.senders.map (fun _ => some ph) }

/-- Successful startSession of the hook: early-return when already started;
otherwise create a placeholder silent track and its AudioContext, establish
the connection with that initial stream (its senders holding the placeholder
track), attach the data-channel handlers, and mark the session started. -/
def startSessionOk (s : AgentState) : AgentState :=
  if s.isSessionStarted then s
  else
    let (ph, s1) := createSilentTrack { s with errorMsg := none }
    { s1 with placeholderTrack := some ph, placeholderCtxOpen := true,
              conn := some { dcState := DcState.connecting },
              senders := [some ph],
              dcAttached := true,
              isSessionStarted := true }

/-- Failed startSession: the catch block records the error and clears
isSessionStarted.  When the failure happens after the placeholder track was
built (late = true, e.g. the SDP exchange fails), the placeholder refs stay
set; an early failure (token fetch) leaves them untouched.  connRef and
tracksRef are assigned only after a successful connection, so they are
untouched in both cases. -/
def startSessionFail (s : AgentState) (late : Bool) (msg : String) :
    AgentState :=
  if s.isSessionStarted then s
  else
    let s1 :=
      if late then
        let (ph, s') := createSilentTrack { s with errorMsg := none }
        { s' with placeholderTrack := some ph, placeholderCtxOpen := true }
      else { s with errorMsg := none }
    { s1 with errorMsg := some msg, isSessionStarted := false }

/-- sendClientEvent of the hook: when the data channel exists and is open,
fill in event_id (kept when truthy, otherwise a fresh uuid) and send; in
every other case log a warning and drop the event. -/
def sendClientEvent (s : AgentState) (e : OutboundEvent) (fresh : String) :
    AgentState :=
  match s.conn with
  | some c =>
    if c.dcState = DcState.opened then
      let eid :=
        match e.event_id with
        | some x => if x = "" then fresh else x
        | none => fresh
      { s with conn := some { c with sent := c.sent ++ [{ e with event_id := some eid }] } }
    else { s with warnings := s.warnings + 1 }
  | none => { s with warnings := s.warnings + 1 }

/-- Events sent so far over the data channel of the current connection. -/
def sentLog (s : AgentState) : List OutboundEvent :=
  match s.conn with
  | some c => c.sent
  | none => []

/-- One observable operation on the hook: the exported controls (with their
external outcomes made explicit), the data-channel open signal, and inbound
payload processing. -/
inductive AgentOp where
  | startSession
  | startSessionFailed (late : Bool) (msg : String)
  | dcOpen
  | stopSession
  | startRecording (grant : Except String Nat)
  | stopRecording
  | inbound (p : RawPayload)
  | send (e : OutboundEvent) (fresh : String)
deriving Repr

/-- onOpen handler attached in startSession: mark the session active and not
listening (plus a session.update send, covered by `send`). -/
def dcOpenFn (s : AgentState) : AgentState :=
  let s1 := { s with isSessionActive := true, isListening := false }
  match s1.conn with
  | some c => { s1 with conn := some { c with dcState := DcState.opened } }
  | none => s1

/-- Apply one operation to the hook state. -/
def applyOp (s : AgentState) : AgentOp → AgentState
  | .startSession => startSessionOk s
  | .startSessionFailed late msg => startSessionFail s late msg
  | .dcOpen => dcOpenFn s
  | .stopSession => stopSessionFn s
  | .startRecording grant => startRecordingFn s grant
  | .stopRecording => stopRecordingFn s
  | .inbound p => (handleRaw s p).1
  | .send e fresh => sendClientEvent s e fresh

/-- Run a sequence of operations from the initial hook state. -/
def runOps (ops : List AgentOp) : AgentState :=
  ops.foldl applyOp initState

/-- The two independent producers feeding the synchronizer. -/
inductive Producer where
  | bot
  | user
deriving DecidableEq, Repr

/-- Delta event of a given producer carrying the given text. -/
def deltaEvent : Producer → String → InboundEvent
  | .bot, d => InboundEvent.botDelta (some d) none
  | .user, d => InboundEvent.userDelta (some d) none

/-- Text field of a timeline entry for a producer, empty when unset. -/
def producerGet : Producer → RealtimeMessage → String
  | .bot, m => m.bot.getD ""
  | .user, m => m.user.getD ""

/-- Text a producer has accumulated on the timeline entry with the given id
(empty when the entry is absent or its field unset). -/
def timelineText (p : Producer) (msgs : List RealtimeMessage) (i : Mid) :
    String :=
  ((msgs.find? (fun m => m.id == i)).map (producerGet p)).getD ""

/-! ### Helper lemmas -/

theorem foldl_append_init (ds : List String) (init : String) :
    ds.foldl (· ++ ·) init = init ++ ds.foldl (· ++ ·) "" := by
  induction ds generalizing init with
  | nil => simp [String.append_empty]
  | cons d ds ih =>
    simp only [List.foldl_cons]
    rw [ih (init ++ d), ih (("" : String) ++ d), String.append_assoc]
    simp [String.empty_append]

theorem join_cons_str (d : String) (ds : List String) :
    String.join (d :: ds) = d ++ String.join ds := by
  simp only [String.join, List.foldl_cons]
  rw [foldl_append_init ds (("" : String) ++ d), String.empty_append]

theorem updateFirst_eq_none {msgs : List RealtimeMessage} {i : Mid}
    {f : RealtimeMessage → RealtimeMessage} :
    updateFirst msgs i f = none ↔ msgs.find? (fun m => m.id == i) = none := by
  induction msgs with
  | nil => simp [updateFirst, List.find?]
  | cons m rest ih =>
    by_cases h : m.id = i
    · rw [List.find?_cons_of_pos _ (by simp [h])]
      simp [updateFirst, h]
    · rw [List.find?_cons_of_neg _ (by simp [h])]
      simpa [updateFirst, if_neg h] using ih

theorem find?_updateFirst {msgs : List RealtimeMessage} {i : Mid}
    {f : RealtimeMessage → RealtimeMessage} {l : List RealtimeMessage}
    (hf : ∀ m, (f m).id = m.id)
    (h : updateFirst msgs i f = some l) :
    l.find? (fun m => m.id == i) =
      (msgs.find? (fun m => m.id == i)).map f := by
  induction msgs generalizing l with
  | nil => simp [updateFirst] at h
  | cons m rest ih =>
    by_cases hid : m.id = i
    · simp only [updateFirst, if_pos hid, Option.some.injEq] at h
      subst h
      rw [List.find?_cons_of_pos _ (by simp [hf, hid]),
          List.find?_cons_of_pos _ (by simp [hid])]
      simp
    · simp only [updateFirst, if_neg hid] at h
      rcases Option.map_eq_some'.mp h with ⟨l', hl', rfl⟩
      rw [List.find?_cons_of_neg _ (by simp [hid]),
          List.find?_cons_of_neg _ (by simp [hid])]
      exact ih hl'

theorem timelineText_botDeltaMsgs (msgs : List RealtimeMessage) (i : Mid)
    (d : String) :
    timelineText Producer.bot (botDeltaMsgs msgs i d) i =
      timelineText Producer.bot msgs i ++ d := by
  unfold botDeltaMsgs
  cases hu : updateFirst msgs i
      (fun m => { m with bot := some (m.bot.getD "" ++ d) }) with
  | none =>
    have hf : msgs.find? (fun m => m.id == i) = none :=
      updateFirst_eq_none.mp hu
    simp only [timelineText, hf]
    rw [List.find?_cons_of_pos _ (by simp)]
    simp [producerGet, String.empty_append]
  | some l =>
    have hfind := find?_updateFirst (f := fun m =>
      { m with bot := some (m.bot.getD "" ++ d) }) (by intro m; rfl) hu
    cases hm : msgs.find? (fun m => m.id == i) with
    | none =>
      rw [updateFirst_eq_none.mpr hm] at hu
      simp at hu
    | some m =>
      rw [hm] at hfind
      simp only [timelineText, hfind, hm]
      simp [producerGet]

theorem timelineText_userDeltaMsgs (msgs : List RealtimeMessage) (i : Mid)
    (d : String) :
    timelineText Producer.user (userDeltaMsgs msgs i d) i =
      timelineText Producer.user msgs i ++ d := by
  unfold userDeltaMsgs
  cases hu : updateFirst msgs i
      (fun m => { m with user := some (m.user.getD "" ++ d) }) with
  | none =>
    have hf : msgs.find? (fun m => m.id == i) = none :=
      updateFirst_eq_none.mp hu
    simp only [timelineText, hf]
    rw [List.find?_cons_of_pos _ (by simp)]
    simp [producerGet, String.empty_append]
  | some l =>
    have hfind := find?_updateFirst (f := fun m =>
      { m with user := some (m.user.getD "" ++ d) }) (by intro m; rfl) hu
    cases hm : msgs.find? (fun m => m.id == i) with
    | none =>
      rw [updateFirst_eq_none.mpr hm] at hu
      simp at hu
    | some m =>
      rw [hm] at hfind
      simp only [timelineText, hfind, hm]
      simp [producerGet]

theorem timelineText_userCompletedMsgs (msgs : List RealtimeMessage)
    (i : Mid) (t : String)
    (h : (msgs.find? (fun m => m.id == i)).isSome = true) :
    timelineText Producer.user (userCompletedMsgs msgs i t) i = t := by
  unfold userCompletedMsgs
  cases hm : msgs.find? (fun m => m.id == i) with
  | none => rw [hm] at h; simp at h
  | some m =>
    cases hu : updateFirst msgs i (fun m => { m with user := some t }) with
    | none =>
      rw [updateFirst_eq_none.mp hu] at hm
      simp at hm
    | some l =>
      have hfind := find?_updateFirst
        (f := fun m => { m with user := some t }) (by intro m; rfl) hu
      rw [hm] at hfind
      simp only [Option.getD_some, timelineText, hfind]
      simp [producerGet]

theorem userCompletedMsgs_of_absent (msgs : List RealtimeMessage)
    (i : Mid) (t : String)
    (h : msgs.find? (fun m => m.id == i) = none) :
    userCompletedMsgs msgs i t = msgs := by
  unfold userCompletedMsgs
  rw [updateFirst_eq_none.mpr h]
  rfl

theorem onBotDelta_of_some (s : AgentState) (i : Mid) (d : String)
    (h : s.currentMessageId = some i) :
    (onBotDelta s d).1 = { s with messages := botDeltaMsgs s.messages i d } := by
  simp [onBotDelta, allocIfNeeded, h]

theorem onUserDelta_of_some (s : AgentState) (i : Mid) (d : String)
    (h : s.currentMessageId = some i) :
    (onUserDelta s d).1 = { s with messages := userDeltaMsgs s.messages i d } := by
  simp [onUserDelta, allocIfNeeded, h]

theorem onUserCompleted_of_some (s : AgentState) (txt : String) (i : Mid)
    (h : s.currentMessageId = some i) :
    (onUserCompleted s txt).1 =
      if s.responseDone = true then
        { s with messages := userCompletedMsgs s.messages i txt,
                 currentMessageId := none, responseDone := false,
                 transcriptionDone := false }
      else
        { s with messages := userCompletedMsgs s.messages i txt,
                 transcriptionDone := true } := by
  simp only [onUserCompleted, h]
  cases hr : s.responseDone <;> simp [hr, resetMessageCycle]

theorem onRespDone_flags (s : AgentState) (r : Option ResponseBody) :
    (onRespDone s r).1.currentMessageId =
      (if s.transcriptionDone = true then none else s.currentMessageId) ∧
    (onRespDone s r).1.responseDone = !s.transcriptionDone ∧
    (onRespDone s r).1.transcriptionDone = false := by
  unfold onRespDone
  rcases hx : respDoneFinalTranscript r with _ | ⟨out, ft⟩ <;>
    cases hc : s.currentMessageId <;>
    cases ht : s.transcriptionDone <;>
    simp [hx, hc, ht, resetMessageCycle]

theorem stepEvent_delta_of_some (p : Producer) (s : AgentState) (i : Mid)
    (d : String) (h : s.currentMessageId = some i) :
    (stepEvent s (deltaEvent p d)).currentMessageId = some i ∧
    timelineText p (stepEvent s (deltaEvent p d)).messages i =
      timelineText p s.messages i ++ d := by
  cases p with
  | bot =>
    by_cases hd : d = ""
    · subst hd
      simp [stepEvent, deltaEvent, processDecoded, h, String.append_empty]
    · simp only [stepEvent, deltaEvent, processDecoded, if_neg hd,
        onBotDelta, allocIfNeeded, h]
      exact ⟨trivial, timelineText_botDeltaMsgs s.messages i d⟩
  | user =>
    by_cases hd : d = ""
    · subst hd
      simp [stepEvent, deltaEvent, processDecoded, h, String.append_empty]
    · simp only [stepEvent, deltaEvent, processDecoded, if_neg hd,
        onUserDelta, allocIfNeeded, h]
      exact ⟨trivial, timelineText_userDeltaMsgs s.messages i d⟩

theorem onBotDelta_of_none (s : AgentState) (d : String)
    (h : s.currentMessageId = none) :
    (onBotDelta s d).1 =
      { s with currentMessageId := some (Mid.loc s.nextUuid),
               nextUuid := s.nextUuid + 1,
               messages := botDeltaMsgs s.messages (Mid.loc s.nextUuid) d } := by
  simp [onBotDelta, allocIfNeeded, h]

theorem onUserDelta_of_none (s : AgentState) (d : String)
    (h : s.currentMessageId = none) :
    (onUserDelta s d).1 =
      { s with currentMessageId := some (Mid.loc s.nextUuid),
               nextUuid := s.nextUuid + 1,
               messages := userDeltaMsgs s.messages (Mid.loc s.nextUuid) d } := by
  simp [onUserDelta, allocIfNeeded, h]

/-- Invariant of the synchronization state that holds in every state
reachable by inbound-event processing: transcriptionDone implies an open
turn, and the two completion flags are never both left set (the
joint-completion check fires within the same handler invocation that would
make them both true). -/
def SyncInv (s : AgentState) : Prop :=
  (s.transcriptionDone = true → s.currentMessageId ≠ none) ∧
  (s.responseDone = false ∨ s.transcriptionDone = false)

theorem syncInv_init : SyncInv initState := by
  constructor
  · intro h
    simp [initState] at h
  · exact Or.inl rfl

theorem syncInv_step (s : AgentState) (e : InboundEvent) (h : SyncInv s) :
    SyncInv (stepEvent s e) := by
  obtain ⟨h1, h2⟩ := h
  cases e with
  | botDelta d iid =>
    cases d with
    | none => exact ⟨h1, h2⟩
    | some txt =>
      by_cases hd : txt = ""
      · have hstep : stepEvent s (InboundEvent.botDelta (some txt) iid) = s := by
          simp [stepEvent, processDecoded, hd]
        rw [hstep]; exact ⟨h1, h2⟩
      · cases hc : s.currentMessageId with
        | none =>
          have hstep := onBotDelta_of_none s txt hc
          simp only [stepEvent, processDecoded, if_neg hd]
          rw [hstep]
          exact ⟨fun _ => by simp, h2⟩
        | some i =>
          have hstep := onBotDelta_of_some s i txt hc
          simp only [stepEvent, processDecoded, if_neg hd]
          rw [hstep]
          exact ⟨fun _ => by simp [hc], h2⟩
  | userDelta d iid =>
    cases d with
    | none => exact ⟨h1, h2⟩
    | some txt =>
      by_cases hd : txt = ""
      · have hstep : stepEvent s (InboundEvent.userDelta (some txt) iid) = s := by
          simp [stepEvent, processDecoded, hd]
        rw [hstep]; exact ⟨h1, h2⟩
      · cases hc : s.currentMessageId with
        | none =>
          have hstep := onUserDelta_of_none s txt hc
          simp only [stepEvent, processDecoded, if_neg hd]
          rw [hstep]
          exact ⟨fun _ => by simp, h2⟩
        | some i =>
          have hstep := onUserDelta_of_some s i txt hc
          simp only [stepEvent, processDecoded, if_neg hd]
          rw [hstep]
          exact ⟨fun _ => by simp [hc], h2⟩
  | userCompleted t iid =>
    cases t with
    | none => exact ⟨h1, h2⟩
    | some txt =>
      by_cases hd : txt = ""
      · have hstep : stepEvent s (InboundEvent.userCompleted (some txt) iid) = s := by
          simp [stepEvent, processDecoded, hd]
        rw [hstep]; exact ⟨h1, h2⟩
      · cases hc : s.currentMessageId with
        | none =>
          have hstep : stepEvent s (InboundEvent.userCompleted (some txt) iid) = s := by
            simp [stepEvent, processDecoded, hd, onUserCompleted, hc]
          rw [hstep]; exact ⟨h1, h2⟩
        | some i =>
          have hstep := onUserCompleted_of_some s txt i hc
          simp only [stepEvent, processDecoded, if_neg hd]
          rw [hstep]
          cases hr : s.responseDone with
          | true =>
            rw [if_pos rfl]
            exact ⟨fun ht => by simp at ht, Or.inl rfl⟩
          | false =>
            rw [if_neg (by simp)]
            exact ⟨fun _ => by simp [hc], Or.inl (by simp [hr])⟩
  | respDone r =>
    obtain ⟨f1, f2, f3⟩ := onRespDone_flags s r
    exact ⟨fun ht => absurd (f3 ▸ ht) (by simp), Or.inr f3⟩
  | unknown ty => exact ⟨h1, h2⟩

theorem syncInv_runEvents (es : List InboundEvent) :
    SyncInv (runEvents initState es) := by
  suffices h : ∀ s, SyncInv s → SyncInv (runEvents s es) from
    h initState syncInv_init
  induction es with
  | nil => exact fun s hs => hs
  | cons e es ih => exact fun s hs => ih _ (syncInv_step s e hs)

theorem gate_step (s : AgentState) (e : InboundEvent) (i : Mid)
    (hinv : SyncInv s) (hid : s.currentMessageId = some i) :
    ((flagsAfterMutation s e).1 = true ∧ (flagsAfterMutation s e).2 = true →
      (stepEvent s e).currentMessageId = none ∧
      (stepEvent s e).responseDone = false ∧
      (stepEvent s e).transcriptionDone = false) ∧
    (¬((flagsAfterMutation s e).1 = true ∧
        (flagsAfterMutation s e).2 = true) →
      (stepEvent s e).currentMessageId = some i) := by
  obtain ⟨h1, h2⟩ := hinv
  have hnotboth : ¬(s.responseDone = true ∧ s.transcriptionDone = true) := by
    rcases h2 with h | h <;> simp [h]
  cases e with
  | botDelta d iid =>
    refine ⟨fun hb => absurd (by simpa [flagsAfterMutation] using hb) hnotboth,
            fun _ => ?_⟩
    cases d with
    | none => exact hid
    | some txt =>
      by_cases hd : txt = ""
      · simpa [stepEvent, processDecoded, hd] using hid
      · simp only [stepEvent, processDecoded, if_neg hd]
        rw [onBotDelta_of_some s i txt hid]
        exact hid
  | userDelta d iid =>
    refine ⟨fun hb => absurd (by simpa [flagsAfterMutation] using hb) hnotboth,
            fun _ => ?_⟩
    cases d with
    | none => exact hid
    | some txt =>
      by_cases hd : txt = ""
      · simpa [stepEvent, processDecoded, hd] using hid
      · simp only [stepEvent, processDecoded, if_neg hd]
        rw [onUserDelta_of_some s i txt hid]
        exact hid
  | userCompleted t iid =>
    by_cases htr : truthy t = true
    · have hflags : flagsAfterMutation s (InboundEvent.userCompleted t iid) =
          (s.responseDone, true) := by
        simp [flagsAfterMutation, htr, hid]
      obtain ⟨txt, rfl⟩ : ∃ txt, t = some txt := by
        cases t with
        | none => simp [truthy] at htr
        | some txt => exact ⟨txt, rfl⟩
      have hd : ¬txt = "" := by
        intro hh
        simp [truthy, hh] at htr
      have hstep := onUserCompleted_of_some s txt i hid
      cases hr : s.responseDone with
      | true =>
        refine ⟨fun _ => ?_, fun hnb => absurd (by simp [hflags, hr]) hnb⟩
        simp only [stepEvent, processDecoded, if_neg hd]
        rw [hstep, hr, if_pos rfl]
        exact ⟨rfl, rfl, rfl⟩
      | false =>
        refine ⟨fun hb => ?_, fun _ => ?_⟩
        · rw [hflags] at hb
          exact absurd hb.1 (by simp [hr])
        · simp only [stepEvent, processDecoded, if_neg hd]
          rw [hstep, hr, if_neg (by simp)]
          exact hid
    · have hflags : flagsAfterMutation s (InboundEvent.userCompleted t iid) =
          (s.responseDone, s.transcriptionDone) := by
        simp [flagsAfterMutation, htr]
      have hstep : stepEvent s (InboundEvent.userCompleted t iid) = s := by
        cases t with
        | none => rfl
        | some txt =>
          have hd : txt = "" := by
            by_contra hh
            exact htr (by simp [truthy, hh])
          simp [stepEvent, processDecoded, hd]
      refine ⟨fun hb => absurd (by simpa [hflags] using hb) hnotboth,
              fun _ => by rw [hstep]; exact hid⟩
  | respDone r =>
    obtain ⟨f1, f2, f3⟩ := onRespDone_flags s r
    have hflags : flagsAfterMutation s (InboundEvent.respDone r) =
        (true, s.transcriptionDone) := rfl
    cases ht : s.transcriptionDone with
    | true =>
      refine ⟨fun _ => ⟨?_, ?_, f3⟩, fun hnb => absurd (by simp [hflags, ht]) hnb⟩
      · show (onRespDone s r).1.currentMessageId = none
        rw [f1, ht]
        simp
      · show (onRespDone s r).1.responseDone = false
        rw [f2, ht]
        simp
    | false =>
      refine ⟨fun hb => ?_, fun _ => ?_⟩
      · rw [hflags] at hb
        exact absurd hb.2 (by simp [ht])
      · show (onRespDone s r).1.currentMessageId = some i
        rw [f1, ht]
        simpa using hid
  | unknown ty =>
    exact ⟨fun hb => absurd (by simpa [flagsAfterMutation] using hb) hnotboth,
           fun _ => hid⟩

theorem onRespDone_tracks (s : AgentState) (r : Option ResponseBody) :
    (onRespDone s r).1.senders = s.senders ∧
    (onRespDone s r).1.placeholderTrack = s.placeholderTrack ∧
    (onRespDone s r).1.audioStream = s.audioStream := by
  unfold onRespDone
  rcases hx : respDoneFinalTranscript r with _ | ⟨out, ft⟩ <;>
    cases hc : s.currentMessageId <;>
    cases ht : s.transcriptionDone <;>
    simp [hx, hc, ht, resetMessageCycle]

theorem stepEvent_preserves_tracks (s : AgentState) (e : InboundEvent) :
    (stepEvent s e).senders = s.senders ∧
    (stepEvent s e).placeholderTrack = s.placeholderTrack ∧
    (stepEvent s e).audioStream = s.audioStream := by
  cases e with
  | botDelta d iid =>
    cases d with
    | none => exact ⟨rfl, rfl, rfl⟩
    | some txt =>
      by_cases hd : txt = ""
      · simp [stepEvent, processDecoded, hd]
      · simp only [stepEvent, processDecoded, if_neg hd]
        cases hc : s.currentMessageId with
        | none => rw [onBotDelta_of_none s txt hc]; exact ⟨rfl, rfl, rfl⟩
        | some i => rw [onBotDelta_of_some s i txt hc]; exact ⟨rfl, rfl, rfl⟩
  | userDelta d iid =>
    cases d with
    | none => exact ⟨rfl, rfl, rfl⟩
    | some txt =>
      by_cases hd : txt = ""
      · simp [stepEvent, processDecoded, hd]
      · simp only [stepEvent, processDecoded, if_neg hd]
        cases hc : s.currentMessageId with
        | none => rw [onUserDelta_of_none s txt hc]; exact ⟨rfl, rfl, rfl⟩
        | some i => rw [onUserDelta_of_some s i txt hc]; exact ⟨rfl, rfl, rfl⟩
  | userCompleted t iid =>
    cases t with
    | none => exact ⟨rfl, rfl, rfl⟩
    | some txt =>
      by_cases hd : txt = ""
      · simp [stepEvent, processDecoded, hd]
      · simp only [stepEvent, processDecoded, if_neg hd]
        cases hc : s.currentMessageId with
        | none =>
          have hstep : (onUserCompleted s txt).1 = s := by
            simp [onUserCompleted, hc]
          rw [hstep]; exact ⟨rfl, rfl, rfl⟩
        | some i =>
          rw [onUserCompleted_of_some s txt i hc]
          by_cases hr : s.responseDone = true
          · rw [if_pos hr]; exact ⟨rfl, rfl, rfl⟩
          · rw [if_neg hr]; exact ⟨rfl, rfl, rfl⟩
  | respDone r => exact onRespDone_tracks s r
  | unknown ty => exact ⟨rfl, rfl, rfl⟩

/-- Invariant of the track-control state in every reachable hook state: no
sender is ever left without a track, the stored placeholder track is always
a silent one, and the stored live stream is always a microphone capture. -/
def TrackInv (s : AgentState) : Prop :=
  (∀ t ∈ s.senders, t ≠ none) ∧
  (∀ p : Track, s.placeholderTrack = some p → p.kind = TrackKind.silent) ∧
  (∀ m : Track, s.audioStream = some m → m.kind = TrackKind.mic)

theorem trackInv_init : TrackInv initState := by
  refine ⟨?_, ?_, ?_⟩ <;> simp [initState]

theorem stopRecordingFn_char (s : AgentState)
    (h2 : ∀ p : Track, s.placeholderTrack = some p →
      p.kind = TrackKind.silent) :
    (∀ t ∈ (stopRecordingFn s).senders,
      ∃ ph : Track, t = some ph ∧ ph.kind = TrackKind.silent) ∧
    (∀ p : Track, (stopRecordingFn s).placeholderTrack = some p →
      p.kind = TrackKind.silent) ∧
    (stopRecordingFn s).audioStream = none := by
  obtain ⟨iss, isa, isl, msgs, err, conn, aud, sen, dca, ph, ctx, cmid,
    rd, td, nu, ntid, etr, w⟩ := s
  cases aud <;> cases sen <;> cases ph <;>
    simp only [stopRecordingFn, createSilentTrack] <;>
    split_ifs <;>
    simp_all [List.mem_map]

theorem trackInv_applyOp (s : AgentState) (op : AgentOp) (h : TrackInv s) :
    TrackInv (applyOp s op) := by
  obtain ⟨h1, h2, h3⟩ := h
  cases op with
  | startSession =>
    obtain ⟨iss, isa, isl, msgs, err, conn, aud, sen, dca, ph, ctx, cmid,
      rd, td, nu, ntid, etr, w⟩ := s
    cases iss <;>
      simp_all [applyOp, startSessionOk, createSilentTrack, TrackInv]
  | startSessionFailed late msg =>
    obtain ⟨iss, isa, isl, msgs, err, conn, aud, sen, dca, ph, ctx, cmid,
      rd, td, nu, ntid, etr, w⟩ := s
    cases iss <;> cases late <;>
      simp_all [applyOp, startSessionFail, createSilentTrack, TrackInv]
  | dcOpen =>
    obtain ⟨iss, isa, isl, msgs, err, conn, aud, sen, dca, ph, ctx, cmid,
      rd, td, nu, ntid, etr, w⟩ := s
    cases conn <;> simp_all [applyOp, dcOpenFn, TrackInv]
  | stopSession =>
    obtain ⟨iss, isa, isl, msgs, err, conn, aud, sen, dca, ph, ctx, cmid,
      rd, td, nu, ntid, etr, w⟩ := s
    cases aud <;> cases ph <;> simp_all [applyOp, stopSessionFn, TrackInv]
  | startRecording grant =>
    obtain ⟨iss, isa, isl, msgs, err, conn, aud, sen, dca, ph, ctx, cmid,
      rd, td, nu, ntid, etr, w⟩ := s
    cases conn with
    | none => simp_all [applyOp, startRecordingFn, TrackInv]
    | some c =>
      cases grant with
      | error msg => simp_all [applyOp, startRecordingFn, TrackInv]
      | ok micId =>
        cases sen <;>
          simp_all [applyOp, startRecordingFn, TrackInv, List.mem_map]
  | stopRecording =>
    have hchar := stopRecordingFn_char s h2
    exact ⟨fun t htm => by
        obtain ⟨ph', hph', _⟩ := hchar.1 t htm
        rw [hph']
        simp,
      hchar.2.1,
      fun m hm => by
        have hm' : (stopRecordingFn s).audioStream = some m := hm
        rw [hchar.2.2] at hm'
        exact Option.noConfusion hm'⟩
  | inbound p =>
    cases p with
    | malformed err => exact ⟨h1, h2, h3⟩
    | wellFormed e =>
      obtain ⟨e1, e2, e3⟩ := stepEvent_preserves_tracks s e
      exact ⟨fun t htm =>
          h1 t (e1 ▸ (show t ∈ (stepEvent s e).senders from htm)),
        fun p hp =>
          h2 p (e2 ▸ (show (stepEvent s e).placeholderTrack = some p from hp)),
        fun m hm =>
          h3 m (e3 ▸ (show (stepEvent s e).audioStream = some m from hm))⟩
  | send e fresh =>
    cases hc : s.conn with
    | none => simp_all [applyOp, sendClientEvent, TrackInv, hc]
    | some c =>
      by_cases hdc : c.dcState = DcState.opened <;>
        simp_all [applyOp, sendClientEvent, TrackInv, hc]

theorem trackInv_runOps (ops : List AgentOp) : TrackInv (runOps ops) := by
  suffices h : ∀ s, TrackInv s → TrackInv (ops.foldl applyOp s) from
    h initState trackInv_init
  induction ops with
  | nil => exact fun s hs => hs
  | cons op ops ih => exact fun s hs => ih _ (trackInv_applyOp s op hs)

theorem startRecordingFn_senders (s : AgentState) (micId : Nat)
    (hconn : ¬s.conn = none) :
    ∀ t ∈ (startRecordingFn s (Except.ok micId)).senders,
      t = some { id := micId, kind := TrackKind.mic } := by
  intro t htm
  cases hl : s.senders with
  | nil => simpa [startRecordingFn, if_neg hconn, hl] using htm
  | cons a rest =>
    simp only [startRecordingFn, if_neg hconn, hl, List.isEmpty_cons,
      ite_false, Bool.false_eq_true] at htm
    simp only [List.mem_map] at htm
    obtain ⟨u, _, rfl⟩ := htm
    rfl

/-! ### Claim theorems -/

/-- C1 (joint-completion gate): along any sequence of inbound events, when a
turn is open, the current turn id is cleared by the next event only if that
event's flag mutation leaves both completion flags true — in which case the
turn id becomes null and both flags are reset to false — and whenever the
flags are not both true after the mutation (in particular when only one of
them is true) the turn id remains exactly as it was. -/
theorem joint_completion_gate (es : List InboundEvent) (e : InboundEvent)
    (i : Mid) (hid : (runEvents initState es).currentMessageId = some i) :
    ((flagsAfterMutation (runEvents initState es) e).1 = true ∧
      (flagsAfterMutation (runEvents initState es) e).2 = true →
      (stepEvent (runEvents initState es) e).currentMessageId = none ∧
      (stepEvent (runEvents initState es) e).responseDone = false ∧
      (stepEvent (runEvents initState es) e).transcriptionDone = false) ∧
    (¬((flagsAfterMutation (runEvents initState es) e).1 = true ∧
        (flagsAfterMutation (runEvents initState es) e).2 = true) →
      (stepEvent (runEvents initState es) e).currentMessageId = some i) :=
  gate_step (runEvents initState es) e i (syncInv_runEvents es) hid

/-- Witness for C1: after a user delta and the user transcription
completion, a response.done event makes both flags true, so the turn id
clears and both flags reset. -/
theorem joint_completion_gate_witness :
    (stepEvent (runEvents initState
        [InboundEvent.userDelta (some "Hi") none,
         InboundEvent.userCompleted (some "Hello") none])
      (InboundEvent.respDone none)).currentMessageId = none ∧
    (stepEvent (runEvents initState
        [InboundEvent.userDelta (some "Hi") none,
         InboundEvent.userCompleted (some "Hello") none])
      (InboundEvent.respDone none)).responseDone = false ∧
    (stepEvent (runEvents initState
        [InboundEvent.userDelta (some "Hi") none,
         InboundEvent.userCompleted (some "Hello") none])
      (InboundEvent.respDone none)).transcriptionDone = false :=
  (joint_completion_gate
    [InboundEvent.userDelta (some "Hi") none,
     InboundEvent.userCompleted (some "Hello") none]
    (InboundEvent.respDone none) (Mid.loc 0) (by decide)).1 (by decide)

/-- C2 (single open turn): processing one inbound event either leaves the
tracked current turn id unchanged or clears it; in particular a new (or
different) turn id appears only when the current turn id was null, so at
most one turn — the one holding the tracked id — is ever open, and no turn
opens while the previous one is still awaiting its completion flags. -/
theorem single_open_turn (s : AgentState) (e : InboundEvent) :
    (stepEvent s e).currentMessageId = s.currentMessageId ∨
    (stepEvent s e).currentMessageId = none ∨
    s.currentMessageId = none := by
  cases e with
  | botDelta d iid =>
    cases d with
    | none => exact Or.inl rfl
    | some txt =>
      by_cases hd : txt = ""
      · exact Or.inl (by simp [stepEvent, processDecoded, hd])
      · cases hc : s.currentMessageId with
        | none => exact Or.inr (Or.inr rfl)
        | some i =>
          left
          simp only [stepEvent, processDecoded, if_neg hd]
          rw [onBotDelta_of_some s i txt hc]
          exact hc
  | userDelta d iid =>
    cases d with
    | none => exact Or.inl rfl
    | some txt =>
      by_cases hd : txt = ""
      · exact Or.inl (by simp [stepEvent, processDecoded, hd])
      · cases hc : s.currentMessageId with
        | none => exact Or.inr (Or.inr rfl)
        | some i =>
          left
          simp only [stepEvent, processDecoded, if_neg hd]
          rw [onUserDelta_of_some s i txt hc]
          exact hc
  | userCompleted t iid =>
    cases t with
    | none => exact Or.inl rfl
    | some txt =>
      by_cases hd : txt = ""
      · exact Or.inl (by simp [stepEvent, processDecoded, hd])
      · cases hc : s.currentMessageId with
        | none => exact Or.inr (Or.inr rfl)
        | some i =>
          simp only [stepEvent, processDecoded, if_neg hd]
          rw [onUserCompleted_of_some s txt i hc]
          cases hr : s.responseDone with
          | true => right; left; simp
          | false => left; simp [hc]
  | respDone r =>
    have hflags := (onRespDone_flags s r).1
    cases ht : s.transcriptionDone with
    | true =>
      right; left
      show (onRespDone s r).1.currentMessageId = none
      rw [hflags, ht]
      simp
    | false =>
      left
      show (onRespDone s r).1.currentMessageId = s.currentMessageId
      rw [hflags, ht]
      simp
  | unknown ty => exact Or.inl rfl

/-- C3 (delta accumulation is append-only): for any list of delta events of
one producer delivered while a turn is open, the producer's text on that
turn's timeline entry ends up being its previous value followed by the
concatenation of all the deltas in order. -/
theorem delta_accumulation_append_only (p : Producer) (s : AgentState)
    (i : Mid) (ds : List String) (h : s.currentMessageId = some i) :
    timelineText p (runEvents s (ds.map (deltaEvent p))).messages i =
      timelineText p s.messages i ++ String.join ds := by
  induction ds generalizing s with
  | nil => simp [runEvents, String.join, String.append_empty]
  | cons d ds ih =>
    obtain ⟨h1, h2⟩ := stepEvent_delta_of_some p s i d h
    calc timelineText p (runEvents s ((d :: ds).map (deltaEvent p))).messages i
        = timelineText p
            (runEvents (stepEvent s (deltaEvent p d))
              (ds.map (deltaEvent p))).messages i := by
          simp [runEvents, List.foldl_cons]
      _ = timelineText p (stepEvent s (deltaEvent p d)).messages i ++
            String.join ds := ih _ h1
      _ = (timelineText p s.messages i ++ d) ++ String.join ds := by rw [h2]
      _ = timelineText p s.messages i ++ String.join (d :: ds) := by
          rw [join_cons_str, String.append_assoc]

/-- Witness for C3 at the spec's own example: two user deltas Hel, lo on an
open turn produce the text Hello. -/
theorem delta_accumulation_append_only_witness :
    timelineText Producer.user
      (runEvents { initState with currentMessageId := some (Mid.loc 0) }
        (["Hel", "lo"].map (deltaEvent Producer.user))).messages (Mid.loc 0) =
      timelineText Producer.user
        ({ initState with
            currentMessageId := some (Mid.loc 0) } : AgentState).messages
        (Mid.loc 0) ++ String.join ["Hel", "lo"] :=
  delta_accumulation_append_only Producer.user
    { initState with currentMessageId := some (Mid.loc 0) }
    (Mid.loc 0) ["Hel", "lo"] rfl

/-- C4 (completion overrides deltas): with a turn open and its timeline
entry present (created by earlier accumulated deltas), a
transcription-completed event with final text t sets the entry's user text
to exactly t — whatever delta concatenation was there before — and its flag
mutation sets transcriptionDone to true; when responseDone was not already
set (the usual order: the user transcript completes before the response),
the processed state itself has transcriptionDone = true (otherwise the
joint-completion check immediately closes the turn, covered by C1). -/
theorem completion_overrides_deltas (s : AgentState) (i : Mid) (t : String)
    (iid : Option String) (ht : t ≠ "")
    (hid : s.currentMessageId = some i)
    (hmem : (s.messages.find? (fun m => m.id == i)).isSome = true) :
    timelineText Producer.user
      (stepEvent s (InboundEvent.userCompleted (some t) iid)).messages i = t ∧
    (flagsAfterMutation s (InboundEvent.userCompleted (some t) iid)).2 =
      true ∧
    (s.responseDone = false →
      (stepEvent s (InboundEvent.userCompleted (some t) iid)).transcriptionDone =
        true) := by
  refine ⟨?_, ?_, ?_⟩
  · simp only [stepEvent, processDecoded, if_neg ht]
    rw [onUserCompleted_of_some s t i hid]
    by_cases hr : s.responseDone = true
    · rw [if_pos hr]
      exact timelineText_userCompletedMsgs s.messages i t hmem
    · rw [if_neg hr]
      exact timelineText_userCompletedMsgs s.messages i t hmem
  · simp [flagsAfterMutation, truthy, ht, hid]
  · intro hr
    simp only [stepEvent, processDecoded, if_neg ht]
    rw [onUserCompleted_of_some s t i hid, hr]
    rfl

/-- Witness for C4 at the spec's example: deltas Hel, lo accumulated the
text Hello; the completion with text Hello there overwrites it. -/
theorem completion_overrides_deltas_witness :
    timelineText Producer.user
      (stepEvent
        { initState with
            currentMessageId := some (Mid.loc 0),
            messages := [{ id := Mid.loc 0, bot := none, user := some "Hello" }] }
        (InboundEvent.userCompleted (some "Hello there") none)).messages
      (Mid.loc 0) = "Hello there" ∧
    (flagsAfterMutation
      { initState with
          currentMessageId := some (Mid.loc 0),
          messages := [{ id := Mid.loc 0, bot := none, user := some "Hello" }] }
      (InboundEvent.userCompleted (some "Hello there") none)).2 = true ∧
    (stepEvent
      { initState with
          currentMessageId := some (Mid.loc 0),
          messages := [{ id := Mid.loc 0, bot := none, user := some "Hello" }] }
      (InboundEvent.userCompleted (some "Hello there") none)).transcriptionDone =
      true :=
  have h := completion_overrides_deltas
    { initState with
        currentMessageId := some (Mid.loc 0),
        messages := [{ id := Mid.loc 0, bot := none, user := some "Hello" }] }
    (Mid.loc 0) "Hello there" none (by decide) rfl (by decide)
  ⟨h.1, h.2.1, h.2.2 rfl⟩

/-- C10 (asymmetric completion-flag setting): a transcription-completed
event whose transcript is absent or empty, or which arrives with no open
turn, is a complete no-op (no state change, no callback); a response.done
event, by contrast, always leaves responseDone set after its own mutation —
shown here on the full step for any state whose transcriptionDone is not
already pending (otherwise the joint check immediately closes the turn). -/
theorem asymmetric_completion_flags (s : AgentState) (t : Option String)
    (iid : Option String) (r : Option ResponseBody) :
    (truthy t = false ∨ s.currentMessageId = none →
      processDecoded s (InboundEvent.userCompleted t iid) = (s, [])) ∧
    (s.transcriptionDone = false →
      (stepEvent s (InboundEvent.respDone r)).responseDone = true) := by
  constructor
  · rintro (h | h)
    · cases t with
      | none => rfl
      | some txt =>
        have hd : txt = "" := by simpa [truthy] using h
        simp [processDecoded, hd]
    · cases t with
      | none => rfl
      | some txt =>
        by_cases hd : txt = ""
        · simp [processDecoded, hd]
        · simp [processDecoded, hd, onUserCompleted, h]
  · intro h
    have hflag := (onRespDone_flags s r).2.1
    show (onRespDone s r).1.responseDone = true
    rw [hflag, h]
    rfl

/-- Witness for C10: a transcription completion with a real transcript but
no open turn is a no-op, while a response.done whose only output is a
function call (no transcript, no open turn) still sets responseDone. -/
theorem asymmetric_completion_flags_witness :
    processDecoded initState
      (InboundEvent.userCompleted (some "Hello") none) = (initState, []) ∧
    (stepEvent initState
      (InboundEvent.respDone (some { output :=
        [{ ty := "function_call", id := "fc1", content := [] }] }))).responseDone =
      true :=
  ⟨(asymmetric_completion_flags initState (some "Hello") none none).1
      (Or.inr rfl),
   (asymmetric_completion_flags initState (some "Hello") none
      (some { output := [{ ty := "function_call", id := "fc1", content := [] }] })).2
      rfl⟩

/-- State used to refute C5: a turn is open with tracked local id 0 and its
entry holds accumulated user text. -/
def c5State : AgentState :=
  { initState with
      currentMessageId := some (Mid.loc 0),
      messages := [{ id := Mid.loc 0, bot := none, user := some "Hel" }] }

/-- Counterexample to C5 as stated: a transcription-completed event carrying
item id item-99 — which does not match the tracked local turn id — still
mutates the current completion-state flags: transcriptionDone flips from
false to true, so a stale completion event does affect the flags. -/
theorem stale_completion_flags_cex :
    c5State.currentMessageId = some (Mid.loc 0) ∧
    c5State.transcriptionDone = false ∧
    (stepEvent c5State
      (InboundEvent.userCompleted (some "Hello") (some "item-99"))).transcriptionDone =
      true := by
  refine ⟨rfl, rfl, ?_⟩
  decide

/-- C5 amended: completion events' carried item ids are ignored entirely —
an event whose id mismatches the tracked turn is processed exactly like a
matching one: the timeline update targets the entry with the tracked
current turn id (and is skipped when no such entry remains), and the
completion flags are mutated regardless (transcriptionDone is set whenever
a turn is tracked and the transcript is non-empty). -/
theorem stale_completion_applied_by_tracked_id (s : AgentState)
    (t : Option String) (iid iid' : Option String) (i : Mid)
    (hid : s.currentMessageId = some i) (ht : truthy t = true) :
    processDecoded s (InboundEvent.userCompleted t iid) =
      processDecoded s (InboundEvent.userCompleted t iid') ∧
    (flagsAfterMutation s (InboundEvent.userCompleted t iid)).2 = true ∧
    (s.messages.find? (fun m => m.id == i) = none →
      (stepEvent s (InboundEvent.userCompleted t iid)).messages =
        s.messages) := by
  refine ⟨rfl, ?_, ?_⟩
  · simp [flagsAfterMutation, ht, hid]
  · intro habs
    obtain ⟨txt, rfl⟩ : ∃ txt, t = some txt := by
      cases t with
      | none => simp [truthy] at ht
      | some txt => exact ⟨txt, rfl⟩
    have hd : ¬txt = "" := by
      intro hh
      simp [truthy, hh] at ht
    simp only [stepEvent, processDecoded, if_neg hd]
    rw [onUserCompleted_of_some s txt i hid]
    by_cases hr : s.responseDone = true
    · rw [if_pos hr]
      exact userCompletedMsgs_of_absent s.messages i txt habs
    · rw [if_neg hr]
      exact userCompletedMsgs_of_absent s.messages i txt habs

/-- Witness for the amended C5: a tracked turn whose entry id was already
rewritten away (empty timeline here), fed a mismatching-id completion. -/
theorem stale_completion_applied_by_tracked_id_witness :
    processDecoded { initState with currentMessageId := some (Mid.loc 0) }
        (InboundEvent.userCompleted (some "Hello") (some "item-99")) =
      processDecoded { initState with currentMessageId := some (Mid.loc 0) }
        (InboundEvent.userCompleted (some "Hello") (some "item-42")) ∧
    (flagsAfterMutation { initState with currentMessageId := some (Mid.loc 0) }
      (InboundEvent.userCompleted (some "Hello") (some "item-99"))).2 = true ∧
    (({ initState with
        currentMessageId := some (Mid.loc 0) } : AgentState).messages.find?
          (fun m => m.id == Mid.loc 0) = none →
      (stepEvent { initState with currentMessageId := some (Mid.loc 0) }
        (InboundEvent.userCompleted (some "Hello") (some "item-99"))).messages =
        ({ initState with
            currentMessageId := some (Mid.loc 0) } : AgentState).messages) :=
  stale_completion_applied_by_tracked_id
    { initState with currentMessageId := some (Mid.loc 0) }
    (some "Hello") (some "item-99") (some "item-42") (Mid.loc 0) rfl (by decide)

/-- C6 (malformed event resilience): a payload that fails JSON parsing fires
onParseError exactly once with the error and leaves the synchronizer state
unchanged, and any payload processed next behaves exactly as if the
malformed one had never arrived. -/
theorem malformed_event_resilience (s : AgentState) (err : String)
    (p : RawPayload) :
    handleRaw s (RawPayload.malformed err) = (s, [Emit.parseError err]) ∧
    handleRaw (handleRaw s (RawPayload.malformed err)).1 p = handleRaw s p :=
  ⟨rfl, rfl⟩

/-- Connection with an open data channel, used to refute C9. -/
def c9Conn : ConnObj := { dcState := DcState.opened }

/-- State with an open data channel, used to refute C9. -/
def c9State : AgentState := { initState with conn := some c9Conn }

/-- Outbound event carrying the client-assigned (empty-string) event id used
to refute C9. -/
def c9Event : OutboundEvent := { ty := "session.update", event_id := some "" }

/-- Counterexample to C9 as stated: an event whose client-assigned event_id
is the empty string is sent with a fresh id instead of its own —
event.event_id || crypto.randomUUID() treats the present-but-empty id as
absent, so the client-assigned id is not preserved. -/
theorem send_empty_event_id_cex :
    c9Event.event_id = some "" ∧
    sentLog (sendClientEvent c9State c9Event "uuid-1") =
      [{ ty := "session.update", event_id := some "uuid-1" }] ∧
    ("uuid-1" : String) ≠ "" := by
  refine ⟨rfl, by decide, by decide⟩

/-- C9 amended: when the data channel is absent or not open, sendClientEvent
drops the event without throwing, its only effect being one logged warning;
when the channel is open the event is sent with its client-assigned
event_id preserved when it is present and non-empty, and with a fresh id
when it is absent or the empty string. -/
theorem send_best_effort (s : AgentState) (e : OutboundEvent)
    (fresh : String) :
    (s.conn = none →
      sendClientEvent s e fresh = { s with warnings := s.warnings + 1 }) ∧
    (∀ c : ConnObj, s.conn = some c → ¬c.dcState = DcState.opened →
      sendClientEvent s e fresh = { s with warnings := s.warnings + 1 }) ∧
    (∀ c : ConnObj, s.conn = some c → c.dcState = DcState.opened →
      ∀ x : String, e.event_id = some x → ¬x = "" →
        sendClientEvent s e fresh =
          { s with conn := some { c with
              sent := c.sent ++ [{ e with event_id := some x }] } }) ∧
    (∀ c : ConnObj, s.conn = some c → c.dcState = DcState.opened →
      e.event_id = none ∨ e.event_id = some "" →
        sendClientEvent s e fresh =
          { s with conn := some { c with
              sent := c.sent ++ [{ e with event_id := some fresh }] } }) := by
  refine ⟨?_, ?_, ?_, ?_⟩
  · intro h
    simp [sendClientEvent, h]
  · intro c hc hno
    simp [sendClientEvent, hc, hno]
  · intro c hc hopen x hx hxne
    simp [sendClientEvent, hc, hopen, hx, hxne]
  · intro c hc hopen hnone
    rcases hnone with h | h <;> simp [sendClientEvent, hc, hopen, h]

/-- Witness for the amended C9: a send with no channel only logs a warning;
a send on an open channel preserves a non-empty client-assigned id. -/
theorem send_best_effort_witness :
    sendClientEvent initState { ty := "response.create", event_id := none }
        "u0" = { initState with warnings := initState.warnings + 1 } ∧
    sendClientEvent c9State { ty := "response.create", event_id := some "cid-7" }
        "u0" =
      { c9State with conn := some { c9Conn with
          sent := c9Conn.sent ++
            [{ ty := "response.create", event_id := some "cid-7" }] } } :=
  ⟨(send_best_effort initState
      { ty := "response.create", event_id := none } "u0").1 rfl,
   (send_best_effort c9State
      { ty := "response.create", event_id := some "cid-7" } "u0").2.2.1
      c9Conn rfl rfl "cid-7" rfl (by decide)⟩

/-- C7 (track invariant): in every reachable hook state no sender is without
a track; after stopRecording every sender holds a (silent placeholder)
track that is non-null and distinct from the previously-live microphone
track; and after a successful startRecording every sender's track is
exactly the newly granted capture track. -/
theorem track_invariant (ops : List AgentOp) :
    (∀ t ∈ (runOps ops).senders, t ≠ none) ∧
    (∀ prev : Track, (runOps ops).audioStream = some prev →
      ∀ t ∈ (stopRecordingFn (runOps ops)).senders,
        t ≠ none ∧ t ≠ some prev) ∧
    (∀ micId : Nat, ¬(runOps ops).conn = none →
      ∀ t ∈ (startRecordingFn (runOps ops) (Except.ok micId)).senders,
        t = some { id := micId, kind := TrackKind.mic }) := by
  obtain ⟨h1, h2, h3⟩ := trackInv_runOps ops
  refine ⟨h1, ?_, ?_⟩
  · intro prev hprev t htm
    have hchar := stopRecordingFn_char (runOps ops) h2
    obtain ⟨ph', rfl, hph'⟩ := hchar.1 t htm
    have hmic : prev.kind = TrackKind.mic := h3 prev hprev
    refine ⟨by simp, ?_⟩
    intro heq
    have hpe : ph' = prev := by simpa using heq
    rw [hpe] at hph'
    rw [hmic] at hph'
    exact TrackKind.noConfusion hph'
  · intro micId hconn t htm
    exact startRecordingFn_senders (runOps ops) micId hconn t htm

/-- Witness for C7: start a session, record with mic track 5, then check
stopRecording detaches track 5 everywhere and a new startRecording with
track 7 attaches track 7 everywhere. -/
theorem track_invariant_witness :
    (∀ t ∈ (stopRecordingFn (runOps
        [AgentOp.startSession, AgentOp.startRecording (Except.ok 5)])).senders,
      t ≠ none ∧ t ≠ some { id := 5, kind := TrackKind.mic }) ∧
    (∀ t ∈ (startRecordingFn (runOps
        [AgentOp.startSession, AgentOp.startRecording (Except.ok 5)])
        (Except.ok 7)).senders,
      t = some { id := 7, kind := TrackKind.mic }) :=
  ⟨(track_invariant
      [AgentOp.startSession, AgentOp.startRecording (Except.ok 5)]).2.1
      { id := 5, kind := TrackKind.mic } (by decide),
   (track_invariant
      [AgentOp.startSession, AgentOp.startRecording (Except.ok 5)]).2.2
      7 (by decide)⟩

/-- C8 (idempotent stop): a second stopSession right after a first is a
no-op on the whole hook state, and closeRealtimeWebRtcConnection is
idempotent, safe on a null connection, and tears down the data channel, the
peer connection and the audio sink of a live connection. -/
theorem idempotent_stop (s : AgentState) (c : ConnObj) :
    stopSessionFn (stopSessionFn s) = stopSessionFn s ∧
    closeRealtimeWebRtcConnection (closeRealtimeWebRtcConnection (some c)) =
      closeRealtimeWebRtcConnection (some c) ∧
    closeRealtimeWebRtcConnection none = none ∧
    (closeConnObj c).dcState = DcState.closed ∧
    (closeConnObj c).pcClosed = true ∧
    (closeConnObj c).srcCleared = true := by
  refine ⟨?_, rfl, rfl, rfl, rfl, rfl⟩
  cases h1 : s.audioStream <;> cases h2 : s.placeholderTrack <;>
    simp [stopSessionFn, h1, h2]

end MyHome
